import Mathlib

/-!
Verification of the file-access plugin (`implementation.js`).

The JavaScript source is shallowly embedded.  Pure helpers become Lean
functions over `List Char` / `String`; the host file system behind the
File System Access API becomes an explicit tree (`Fs`); the mutable
session state of `DirectoryPermissionManager` becomes a record threaded
through the operations; host interactions (pickers, permission prompts,
the IndexedDB-backed store) become explicit parameters; thrown
JavaScript errors become `Except` values.  Each file operation also
reports the ordered list of side-effecting events it performed (`Ev`),
so that ordering statements such as "validated before any filesystem
lookup" and "failed before any content was decoded" can be expressed.
-/

namespace FilePlugin

deriving instance DecidableEq for Except

/-- Character-list test: does `pre` start the second list? -/
def chStartsWith : List Char → List Char → Bool
  | [], _ => true
  | _ :: _, [] => false
  | a :: as, b :: bs => a == b && chStartsWith as bs

/-- Substring test on character lists, mirroring JavaScript
`haystack.includes(needle)`. -/
def chContains : List Char → List Char → Bool
  | [], needle => chStartsWith needle []
  | c :: rest, needle => chStartsWith needle (c :: rest) || chContains rest needle

/-- JavaScript `haystack.includes(needle)` on strings. -/
def containsSub (haystack needle : String) : Bool :=
  chContains haystack.data needle.data

/-- JavaScript `path.replace(/\\/g, '/')`. -/
def normalizeSlashes (s : String) : String :=
  String.mk (s.data.map fun c => if c == '\\' then '/' else c)

/-- JavaScript `s.toLowerCase()`; ASCII case folding, which covers every
constant the source compares against. -/
def toLowerStr (s : String) : String :=
  String.mk (s.data.map Char.toLower)

/-- JavaScript `s.startsWith('/')`. -/
def startsWithSlash (s : String) : Bool :=
  match s.data with
  | '/' :: _ => true
  | _ => false

/-- JavaScript `/^[A-Za-z]:/.test(s)`: a drive-letter path. -/
def hasDriveLetter (s : String) : Bool :=
  match s.data with
  | c :: ':' :: _ => c.isAlpha
  | _ => false

/-- JavaScript `String.prototype.split` on one separator character
(keeps empty groups, exactly like the JavaScript original). -/
def splitCh (sep : Char) : List Char → List (List Char)
  | [] => [[]]
  | c :: rest =>
    let r := splitCh sep rest
    if c == sep then [] :: r
    else
      match r with
      | [] => [[c]]
      | g :: gs => (c :: g) :: gs

/-- JavaScript `path.split('/').filter(segment => segment.length > 0)`,
used by `getFileHandle`, `getDirectoryHandle` and `createFileHandle`. -/
def pathSegments (s : String) : List String :=
  ((splitCh '/' s.data).map String.mk).filter fun t => t.length != 0

/-- JavaScript `name.split('.').pop()`: the last component of a dot
split, with no filtering (used by the `allowedExtensions` check). -/
def lastDotComponent (s : String) : String :=
  (((splitCh '.' s.data).map String.mk).getLast?).getD ""

/-- JavaScript `str.replace(/\/+/g, '/')`: collapse each run of '/'
characters to a single '/'. -/
def collapseCh : List Char → List Char
  | [] => []
  | [c] => [c]
  | a :: b :: rest =>
    if a == '/' && b == '/' then collapseCh (b :: rest)
    else a :: collapseCh (b :: rest)

/-- String wrapper around `collapseCh`. -/
def collapseSlashes (s : String) : String :=
  String.mk (collapseCh s.data)

/-- UTF-8 byte length of a string; this is what the host reports as
`File.size` for a file whose bytes are the UTF-8 encoding of `s`. -/
def byteLen (s : String) : Nat :=
  s.data.foldl (fun n c => n + c.utf8Size) 0

/-- Error kinds thrown by `validateFilePath`.  The source throws plain
`Error`s whose messages distinguish these cases; `invalidPath`
corresponds to the non-string/empty guard, which is unreachable for
string inputs because the empty string is accepted earlier. -/
inductive PathError where
  | invalidPath
  | traversal
  | absolute
  | sensitive
deriving DecidableEq

/-- The fixed sensitive-name blocklist from `validateFilePath`. -/
def sensitiveDirectories : List String :=
  ["system", "windows", "program files", "etc", "var"]

/-- Shallow embedding of `validateFilePath(path, directoryAccessGranted)`.
The source duplicates the absolute-path test across the granted and
non-granted branches with different error messages; the condition is
identical, so both branches are written out with the same error kind. -/
def validateFilePath (path : String) (directoryAccessGranted : Bool) :
    Except PathError Unit :=
  if path = "" ∨ path = "." ∨ path = "./" then Except.ok ()
  else
    let normalizedPath := normalizeSlashes path
    if containsSub normalizedPath "../" || containsSub normalizedPath "..\\" then
      Except.error PathError.traversal
    else
      let isAbs := startsWithSlash normalizedPath || hasDriveLetter normalizedPath
      let sensitiveTail :=
        if sensitiveDirectories.any (fun d => containsSub (toLowerStr normalizedPath) d) then
          Except.error PathError.sensitive
        else Except.ok ()
      if directoryAccessGranted then
        if isAbs then Except.error PathError.absolute else sensitiveTail
      else
        if isAbs then Except.error PathError.absolute else sensitiveTail

/-- Index of the last '.' in a character list, if any. -/
def lastDotIdx : List Char → Option Nat
  | [] => none
  | c :: rest =>
    match lastDotIdx rest with
    | some i => some (i + 1)
    | none => if c == '.' then some 0 else none

/-- JavaScript `path.slice((path.lastIndexOf('.') - 1 >>> 0) + 2)`.
When there is no dot, `lastIndexOf` is -1 and the unsigned shift wraps
the slice start past the end, giving `""`; the same wrap happens when
the last dot sits at index 0, so that case also gives `""`. -/
def getFileExtension (path : String) : String :=
  match lastDotIdx path.data with
  | none => ""
  | some 0 => ""
  | some (i + 1) => String.mk (path.data.drop (i + 2))

/-- The text-extension table from `isTextFile`. -/
def textExtensions : List String :=
  ["txt", "md", "js", "jsx", "ts", "tsx", "html", "css", "json", "csv",
   "xml", "py", "java", "c", "cpp", "h", "rb"]

/-- JavaScript `isTextFile(path)`. -/
def isTextFile (path : String) : Bool :=
  textExtensions.contains (toLowerStr (getFileExtension path))

/-- A host file-system tree behind the File System Access API.  A
directory handle is represented by the subtree it roots. -/
inductive Fs where
  | file (content : String)
  | dir (entries : List (String × Fs))

/-- The `kind` field the host reports for a directory entry. -/
inductive EKind where
  | file
  | directory
deriving DecidableEq

/-- Host `entry.kind`. -/
def entryKind : Fs → EKind
  | .file _ => .file
  | .dir _ => .directory

/-- Association-list lookup (host child lookup, and the id-keyed store). -/
def lookupAssoc {α : Type} : List (String × α) → String → Option α
  | [], _ => none
  | (k, v) :: rest, key => if k = key then some v else lookupAssoc rest key

/-- Association-list update/insert. -/
def setEntry {α : Type} : List (String × α) → String → α → List (String × α)
  | [], key, v => [(key, v)]
  | (k, w) :: rest, key, v =>
    if k = key then (key, v) :: rest else (k, w) :: setEntry rest key v

/-- The host rejects '.' and '..' as child-entry names
(`getDirectoryHandle`/`getFileHandle` throw a `TypeError` on them);
empty names cannot occur because the callers filter empty segments. -/
def validName (n : String) : Bool :=
  !(n == ".") && !(n == "..")

/-- Walk directory entries segment by segment without creating anything
(the `{ create: false }` loop shared by `getFileHandle` and
`getDirectoryHandle`).  `none` models the host throwing during the walk
(absent child, child of the wrong kind, or an invalid name). -/
def walkDir : List (String × Fs) → List String → Option (List (String × Fs))
  | es, [] => some es
  | es, seg :: rest =>
    if validName seg then
      match lookupAssoc es seg with
      | some (Fs.dir es2) => walkDir es2 rest
      | _ => none
    else none

/-- Split a list into its leading part and last element. -/
def splitLast {α : Type} : List α → Option (List α × α)
  | [] => none
  | [a] => some ([], a)
  | a :: b :: rest =>
    match splitLast (b :: rest) with
    | some (front, last) => some (a :: front, last)
    | none => none

/-- Entries of a directory tree (a picked root is always a directory). -/
def childEntries : Fs → List (String × Fs)
  | .file _ => []
  | .dir es => es

/-- The session state of `DirectoryPermissionManager`, generic in the
handle type: `rootDirectoryHandle`, `permissionGranted`,
`currentDirectoryId` (the storage manager itself is kept outside). -/
structure DPMState (H : Type) where
  rootDirectoryHandle : Option H
  permissionGranted : Bool
  currentDirectoryId : Option String

/-- The constructor state of `DirectoryPermissionManager`. -/
def dpmInit (H : Type) : DPMState H :=
  { rootDirectoryHandle := none, permissionGranted := false,
    currentDirectoryId := none }

/-- `DirectoryPermissionManager.hasPermission()`. -/
def hasPermission {H : Type} (s : DPMState H) : Bool :=
  s.rootDirectoryHandle.isSome && s.permissionGranted

/-- The session-state invariant stated by the specification:
`activeToken` is non-null iff `activeGrantId` is non-null and the most
recent permission verification succeeded (the cached flag). -/
def invariantHolds {H : Type} (s : DPMState H) : Prop :=
  s.rootDirectoryHandle.isSome = true ↔
    (s.currentDirectoryId.isSome = true ∧ s.permissionGranted = true)

instance {H : Type} (s : DPMState H) : Decidable (invariantHolds s) := by
  unfold invariantHolds; infer_instance

/-- Shallow embedding of
`DirectoryPermissionManager.requestDirectoryPermission()`.  Host
interactions are parameters: `picker` is `window.showDirectoryPicker`,
`verify` is `verifyPermission(handle, true)`, `storeRes` is
`storageManager.storeDirectoryHandle` returning the generated id.  Note
the source assigns `rootDirectoryHandle` from the picker *before*
verifying, and its catch block only resets `permissionGranted`. -/
def requestDirectoryPermission {H : Type} (picker : Except Unit H)
    (verify : H → Except Unit Bool) (storeRes : Except Unit String)
    (s : DPMState H) : DPMState H × Except Unit Bool :=
  match picker with
  | .error _ => ({ s with permissionGranted := false }, Except.error ())
  | .ok h =>
    let s1 := { s with rootDirectoryHandle := some h }
    match verify h with
    | .error _ => ({ s1 with permissionGranted := false }, Except.error ())
    | .ok granted =>
      let s2 := { s1 with permissionGranted := granted }
      if granted then
        match storeRes with
        | .ok newId =>
          ({ s2 with currentDirectoryId := some newId }, Except.ok true)
        | .error _ => ({ s2 with permissionGranted := false }, Except.error ())
      else (s2, Except.ok false)

/-- Shallow embedding of
`DirectoryPermissionManager.switchDirectory(directoryId)`.  An absent id
makes the source throw (`Directory with ID ... not found`, rethrown as
`Failed to switch directory`); a denied verification returns `false`
after assigning `permissionGranted = false`; a throwing verification is
rethrown before any assignment. -/
def switchDirectory {H : Type} (store : List (String × H))
    (verify : H → Except Unit Bool) (directoryId : String)
    (s : DPMState H) : DPMState H × Except Unit Bool :=
  match lookupAssoc store directoryId with
  | none => (s, Except.error ())
  | some h =>
    match verify h with
    | .error _ => (s, Except.error ())
    | .ok true =>
      ({ rootDirectoryHandle := some h, permissionGranted := true,
         currentDirectoryId := some directoryId }, Except.ok true)
    | .ok false => ({ s with permissionGranted := false }, Except.ok false)

/-- IndexedDB `delete` resolves successfully whether or not the key is
present, so `StorageManager.removeDirectoryHandle` always reports
`true` (absent an engine failure). -/
def storeDelete {α : Type} (store : List (String × α)) (id : String) :
    List (String × α) × Bool :=
  (store.filter fun kv => kv.1 != id, true)

/-- Shallow embedding of
`DirectoryPermissionManager.removeDirectory(directoryId)`: clear the
active state first when the removed id is the current one, then delete
the stored record. -/
def removeDirectory {H : Type} (s : DPMState H) (store : List (String × H))
    (directoryId : String) : DPMState H × List (String × H) × Bool :=
  let s1 :=
    if s.currentDirectoryId = some directoryId then
      { rootDirectoryHandle := none, permissionGranted := false,
        currentDirectoryId := none }
    else s
  let del := storeDelete store directoryId
  (s1, del.1, del.2)

/-- A record as persisted by `StorageManager.storeDirectoryHandle`. -/
structure StoredDir (H : Type) where
  id : String
  name : String
  path : String
  handle : H
  dateAdded : String

/-- One element of the `getStoredDirectories` result. -/
structure VerifiedDir where
  id : String
  name : String
  path : String
  hasPermission : Bool
  dateAdded : String
  errNote : Option String
deriving DecidableEq

/-- Shallow embedding of
`DirectoryPermissionManager.getStoredDirectories()`: for each stored
record, `verifyPermission(handle, false)` runs inside a try/catch; a
throwing verification is reported as `hasPermission = false` with the
error message attached, never aborting the loop. -/
def getStoredDirectories {H : Type} (verify : H → Except String Bool)
    (dirs : List (StoredDir H)) : List VerifiedDir :=
  dirs.map fun d =>
    match verify d.handle with
    | .ok b =>
      { id := d.id, name := d.name, path := d.path, hasPermission := b,
        dateAdded := d.dateAdded, errNote := none }
    | .error msg =>
      { id := d.id, name := d.name, path := d.path, hasPermission := false,
        dateAdded := d.dateAdded, errNote := some msg }

/-- Error kinds surfaced by the file operations (the source wraps them
all in `Error` objects with distinguishing messages). -/
inductive FErr where
  | validation (e : PathError)
  | noActiveGrant
  | emptyPath
  | notFound
  | pickerCancelled
  | limitExceeded
  | disallowedType
deriving DecidableEq

/-- Side-effecting events an operation performs, in order. -/
inductive Ev where
  | validated (path : String)
  | fsLookup (path : String)
  | pickerOpen
  | decodeText
  | decodeBinary
deriving DecidableEq

/-- A host file as returned by `fileHandle.getFile()`: its name and its
content (the size is the UTF-8 byte length of the content). -/
structure FileData where
  name : String
  content : String
deriving DecidableEq

/-- `DirectoryPermissionManager.getFileHandle(path)` fused with the
caller's subsequent `fileHandle.getFile()`: split the path, walk the
directory segments with `{ create: false }`, resolve the last segment
as a file. -/
def getFileHandle (s : DPMState Fs) (path : String) : Except FErr FileData :=
  match s.rootDirectoryHandle with
  | none => Except.error FErr.noActiveGrant
  | some root =>
    let segments := pathSegments path
    match splitLast segments with
    | none => Except.error FErr.emptyPath
    | some (dirs, fileName) =>
      match walkDir (childEntries root) dirs with
      | none => Except.error FErr.notFound
      | some es =>
        if validName fileName then
          match lookupAssoc es fileName with
          | some (Fs.file content) =>
            Except.ok { name := fileName, content := content }
          | _ => Except.error FErr.notFound
        else Except.error FErr.notFound

/-- `DirectoryPermissionManager.getDirectoryHandle(path)`, returning the
resolved directory's entries. -/
def getDirectoryHandle (s : DPMState Fs) (path : String) :
    Except FErr (List (String × Fs)) :=
  match s.rootDirectoryHandle with
  | none => Except.error FErr.noActiveGrant
  | some root =>
    if path = "" ∨ path = "/" ∨ path = "." then Except.ok (childEntries root)
    else
      match walkDir (childEntries root) (pathSegments path) with
      | some es => Except.ok es
      | none => Except.error FErr.notFound

/-- `DirectoryPermissionManager.createFileHandle(path)` fused with the
caller's `createWritable`/`write`/`close`: walk the directory segments
with `{ create: true }` (an existing file in the way makes the host
throw), then create or truncate-and-write the final file (an existing
directory of that name makes the host throw). -/
def createFilePath : Fs → List String → String → Option Fs
  | .file _, _, _ => none
  | .dir _, [], _ => none
  | .dir es, [fileName], content =>
    if validName fileName then
      match lookupAssoc es fileName with
      | some (Fs.dir _) => none
      | _ => some (Fs.dir (setEntry es fileName (Fs.file content)))
    else none
  | .dir es, seg :: s2 :: rest, content =>
    if validName seg then
      match lookupAssoc es seg with
      | some (Fs.file _) => none
      | some (Fs.dir ces) =>
        match createFilePath (Fs.dir ces) (s2 :: rest) content with
        | some child => some (Fs.dir (setEntry es seg child))
        | none => none
      | none =>
        match createFilePath (Fs.dir []) (s2 :: rest) content with
        | some child => some (Fs.dir (setEntry es seg child))
        | none => none
    else none

/-- The `FileAccessManager` constructor options (`baseDirectory`,
`maxFileSize`, `allowedExtensions`). -/
structure FamConfig where
  baseDirectory : String
  maxFileSize : Nat
  allowedExtensions : Option (List String)

/-- The constructor defaults (`10 * 1024 * 1024`, no extension list). -/
def defaultConfig : FamConfig :=
  { baseDirectory := "", maxFileSize := 10 * 1024 * 1024,
    allowedExtensions := none }

/-- `FileAccessManager._resolvePath(relativePath)`: validate (passing
`hasPermission()` as the grant flag), then combine with `baseDirectory`.
Every caller ignores the combined string; only the validation matters. -/
def resolvePath (cfg : FamConfig) (s : DPMState Fs) (relativePath : String) :
    Except FErr String :=
  match validateFilePath relativePath (hasPermission s) with
  | .error e => Except.error (FErr.validation e)
  | .ok _ =>
    if cfg.baseDirectory ≠ "" then
      Except.ok (collapseSlashes (cfg.baseDirectory ++ "/" ++ relativePath))
    else Except.ok relativePath

/-- The record returned by `readFile` (the host-metadata fields `type`
and `lastModified` are opaque host values and are omitted). -/
structure ReadResult where
  content : String
  name : String
  size : Nat
deriving DecidableEq

/-- Modelled from the spec: the binary branch returns the file as a
self-describing base64 data URL produced by the host
`FileReader.readAsDataURL`; the encoding itself is host behaviour, so
the payload is kept abstract as a tagged string. -/
def readAsDataURL (content : String) : String :=
  "data:;base64," ++ content

/-- The tail of `readFile` after a file has been obtained: the size
ceiling check, the `allowedExtensions` check, then decoding (text via
`file.text()`, otherwise a data URL). -/
def finishRead (cfg : FamConfig) (file : FileData) :
    Except FErr ReadResult × List Ev :=
  if byteLen file.content > cfg.maxFileSize then
    (Except.error FErr.limitExceeded, [])
  else
    let extOk :=
      match cfg.allowedExtensions with
      | some exts => exts.contains (toLowerStr (lastDotComponent file.name))
      | none => true
    if extOk then
      if isTextFile file.name then
        (Except.ok { content := file.content, name := file.name,
                     size := byteLen file.content }, [Ev.decodeText])
      else
        (Except.ok { content := readAsDataURL file.content, name := file.name,
                     size := byteLen file.content }, [Ev.decodeBinary])
    else (Except.error FErr.disallowedType, [])

/-- Shallow embedding of `FileAccessManager.readFile(filePath)`.  The
grant branch is taken exactly when `hasPermission()` is truthy *and*
`filePath` is a non-empty string; only the fallback branch calls
`_resolvePath` (hence `validateFilePath`).  `pick` models the host
open-file picker (`none` = the user cancelled). -/
def readFile (cfg : FamConfig) (s : DPMState Fs) (pick : Option FileData)
    (filePath : String) : Except FErr ReadResult × List Ev :=
  if hasPermission s = true ∧ filePath ≠ "" then
    match getFileHandle s filePath with
    | .error e => (Except.error e, [Ev.fsLookup filePath])
    | .ok file =>
      let fin := finishRead cfg file
      (fin.1, Ev.fsLookup filePath :: fin.2)
  else
    match resolvePath cfg s filePath with
    | .error e => (Except.error e, [Ev.validated filePath])
    | .ok _ =>
      match pick with
      | none => (Except.error FErr.pickerCancelled,
                 [Ev.validated filePath, Ev.pickerOpen])
      | some file =>
        let fin := finishRead cfg file
        (fin.1, Ev.validated filePath :: Ev.pickerOpen :: fin.2)

/-- Shallow embedding of `FileAccessManager.writeFile(filePath, content)`.
The grant branch creates/overwrites the file under the granted root; the
fallback branch validates via `_resolvePath` and then writes to a
host-picked file outside the granted tree (`savePickOk = false` models
a cancelled save picker). -/
def writeFile (cfg : FamConfig) (s : DPMState Fs) (savePickOk : Bool)
    (filePath content : String) : Except FErr Unit × DPMState Fs × List Ev :=
  if hasPermission s = true ∧ filePath ≠ "" then
    match s.rootDirectoryHandle with
    | none => (Except.error FErr.noActiveGrant, s, [Ev.fsLookup filePath])
    | some root =>
      let segments := pathSegments filePath
      if segments = [] then
        (Except.error FErr.emptyPath, s, [Ev.fsLookup filePath])
      else
        match createFilePath root segments content with
        | some root2 =>
          (Except.ok (), { s with rootDirectoryHandle := some root2 },
           [Ev.fsLookup filePath])
        | none => (Except.error FErr.notFound, s, [Ev.fsLookup filePath])
  else
    match resolvePath cfg s filePath with
    | .error e => (Except.error e, s, [Ev.validated filePath])
    | .ok _ =>
      if savePickOk then
        (Except.ok (), s, [Ev.validated filePath, Ev.pickerOpen])
      else
        (Except.error FErr.pickerCancelled, s,
         [Ev.validated filePath, Ev.pickerOpen])

/-- One element of the `listFiles` result. -/
structure FileEntry where
  name : String
  kind : EKind
  path : String
deriving DecidableEq

/-- Shallow embedding of `FileAccessManager.listFiles(directory)`.  The
grant branch composes each entry's relative path as
``directory ? `${directory}/${name}`.replace(/\/+/g,'/') : name``; the
fallback branch validates via `_resolvePath`, opens a one-shot host
directory picker (`pickedDir`), and always uses the template form. -/
def listFiles (cfg : FamConfig) (s : DPMState Fs)
    (pickedDir : Option (List (String × Fs))) (directory : String) :
    Except FErr (List FileEntry) × List Ev :=
  if hasPermission s = true then
    match getDirectoryHandle s directory with
    | .error e => (Except.error e, [Ev.fsLookup directory])
    | .ok es =>
      (Except.ok (es.map fun kv =>
        { name := kv.1, kind := entryKind kv.2,
          path := if directory ≠ "" then
              collapseSlashes (directory ++ "/" ++ kv.1)
            else kv.1 }), [Ev.fsLookup directory])
  else
    match resolvePath cfg s directory with
    | .error e => (Except.error e, [Ev.validated directory])
    | .ok _ =>
      match pickedDir with
      | none => (Except.error FErr.pickerCancelled,
                 [Ev.validated directory, Ev.pickerOpen])
      | some es =>
        (Except.ok (es.map fun kv =>
          { name := kv.1, kind := entryKind kv.2,
            path := collapseSlashes (directory ++ "/" ++ kv.1) }),
         [Ev.validated directory, Ev.pickerOpen])

/-- A session state with one active grant over an empty root directory. -/
def activeEmptyRoot : DPMState Fs :=
  { rootDirectoryHandle := some (Fs.dir []), permissionGranted := true,
    currentDirectoryId := some "dir_0" }

/-- The configuration of the round-trip scenario: a 1024-byte ceiling. -/
def cfg1024 : FamConfig :=
  { baseDirectory := "", maxFileSize := 1024, allowedExtensions := none }

/-- A configuration with a 3-byte ceiling, for the oversize-read claim. -/
def cfgTiny : FamConfig :=
  { baseDirectory := "", maxFileSize := 3, allowedExtensions := none }

/-- A session state whose granted root holds one 5-byte file. -/
def oversizeState : DPMState Fs :=
  { rootDirectoryHandle := some (Fs.dir [("big.txt", Fs.file "hello")]),
    permissionGranted := true, currentDirectoryId := some "dir_1" }

/-- A session state whose granted root holds `notes/a.txt` = "hello". -/
def notesState : DPMState Fs :=
  { rootDirectoryHandle :=
      some (Fs.dir [("notes", Fs.dir [("a.txt", Fs.file "hello")])]),
    permissionGranted := true, currentDirectoryId := some "dir_0" }

/-- Updating an association list and then looking the same key up yields
the stored value. -/
theorem lookup_setEntry_self {α : Type} (es : List (String × α)) (k : String)
    (v : α) : lookupAssoc (setEntry es k v) k = some v := by
  induction es with
  | nil => simp [setEntry, lookupAssoc]
  | cons kv rest ih =>
    obtain ⟨k2, w⟩ := kv
    by_cases hk : k2 = k
    · subst hk
      simp [setEntry, lookupAssoc]
    · simp [setEntry, lookupAssoc, hk, ih]

/-- The event tail produced by `finishRead` is at most one decode event. -/
theorem finishRead_events (cfg : FamConfig) (f : FileData) :
    (finishRead cfg f).2 = [] ∨ (finishRead cfg f).2 = [Ev.decodeText] ∨
      (finishRead cfg f).2 = [Ev.decodeBinary] := by
  unfold finishRead
  split
  · exact Or.inl rfl
  · dsimp only
    split
    · split
      · exact Or.inr (Or.inl rfl)
      · exact Or.inr (Or.inr rfl)
    · exact Or.inl rfl

/-- C2 counterexample: a path whose final segment is `..` (no following
separator) is accepted by `validateFilePath` under both grant states,
because the traversal test only looks for the substrings "../" and
"..\" in the normalized path. -/
theorem validate_dotdot_tail_passes :
    validateFilePath ".." true = Except.ok () ∧
    validateFilePath ".." false = Except.ok () ∧
    validateFilePath "a/.." true = Except.ok () ∧
    validateFilePath "a/.." false = Except.ok () := by decide

/-- C2 (amended): every path whose backslash-normalized form contains a
`..` segment followed by a separator (the substring "../") fails with
Traversal, for both grant states.  (A trailing `..` segment is not
rejected; see the counterexample.) -/
theorem validate_rejects_dotdot_slash (path : String) (g : Bool)
    (h : containsSub (normalizeSlashes path) "../" = true) :
    validateFilePath path g = Except.error PathError.traversal := by
  unfold validateFilePath
  split
  · rename_i h0
    rcases h0 with h0 | h0 | h0 <;> subst h0 <;> exact absurd h (by decide)
  · simp [h]

/-- Witness for `validate_rejects_dotdot_slash` at the input "a/../b". -/
theorem validate_rejects_dotdot_slash_witness :
    containsSub (normalizeSlashes "a/../b") "../" = true ∧
    validateFilePath "a/../b" true = Except.error PathError.traversal :=
  ⟨by decide, validate_rejects_dotdot_slash "a/../b" true (by decide)⟩

/-- C1: with an active grant, the path-taking operations skip
`validateFilePath` entirely.  At the traversal path "../x" — which the
validator rejects — `readFile`, `writeFile` and `listFiles` all perform
the grant-branch filesystem lookup (event `fsLookup`), never emit a
`validated` event, and fail with the host resolution error rather than
a validation error. -/
theorem grant_branch_skips_validation :
    validateFilePath "../x" true = Except.error PathError.traversal ∧
    readFile defaultConfig activeEmptyRoot none "../x" =
      (Except.error FErr.notFound, [Ev.fsLookup "../x"]) ∧
    (writeFile defaultConfig activeEmptyRoot true "../x" "y").1 =
      Except.error FErr.notFound ∧
    (writeFile defaultConfig activeEmptyRoot true "../x" "y").2.2 =
      [Ev.fsLookup "../x"] ∧
    listFiles defaultConfig activeEmptyRoot none "../x" =
      (Except.error FErr.notFound, [Ev.fsLookup "../x"]) ∧
    ∀ p, Ev.validated p ∉ (readFile defaultConfig activeEmptyRoot none "../x").2 := by
  refine ⟨rfl, rfl, rfl, rfl, rfl, ?_⟩
  intro p
  show Ev.validated p ∉ [Ev.fsLookup "../x"]
  simp

/-- C3 counterexample: from the initial state, a picker success followed
by a denied verification leaves `rootDirectoryHandle` set to the picked
handle while `permissionGranted` is false and `currentDirectoryId` is
null — the claimed invariant fails on this failure path. -/
theorem request_denied_breaks_invariant :
    ¬ invariantHolds
        (requestDirectoryPermission (Except.ok ()) (fun _ => Except.ok false)
          (Except.ok "id1") (dpmInit Unit)).1 := by decide

/-- C3 (amended): the session-state invariant holds in the initial
state, is preserved by `removeDirectory` (both the active-id and
other-id cases), and is re-established by every *successful*
`requestDirectoryPermission` and `switchDirectory`.  It is not
preserved by their denied-verification failure paths (see the
counterexample). -/
theorem invariant_amended :
    (∀ (H : Type), invariantHolds (dpmInit H)) ∧
    (∀ (H : Type) (s : DPMState H) (store : List (String × H)) (id : String),
        invariantHolds s → invariantHolds (removeDirectory s store id).1) ∧
    (∀ (H : Type) (picker : Except Unit H) (verify : H → Except Unit Bool)
        (storeRes : Except Unit String) (s : DPMState H),
        (requestDirectoryPermission picker verify storeRes s).2 = Except.ok true →
        invariantHolds (requestDirectoryPermission picker verify storeRes s).1) ∧
    (∀ (H : Type) (store : List (String × H)) (verify : H → Except Unit Bool)
        (id : String) (s : DPMState H),
        (switchDirectory store verify id s).2 = Except.ok true →
        invariantHolds (switchDirectory store verify id s).1) := by
  refine ⟨?_, ?_, ?_, ?_⟩
  · intro H
    simp [invariantHolds, dpmInit]
  · intro H s store id hs
    unfold removeDirectory
    dsimp only
    split
    · simp [invariantHolds]
    · exact hs
  · intro H picker verify storeRes s hok
    unfold requestDirectoryPermission at hok ⊢
    cases picker with
    | error e => simp at hok
    | ok h =>
      dsimp only at hok ⊢
      cases hv : verify h with
      | error e =>
        rw [hv] at hok
        simp at hok
      | ok granted =>
        rw [hv] at hok
        cases granted with
        | false => simp at hok
        | true =>
          cases storeRes with
          | error e => simp at hok
          | ok newId => simp [invariantHolds]
  · intro H store verify id s hok
    unfold switchDirectory at hok ⊢
    cases hl : lookupAssoc store id with
    | none =>
      rw [hl] at hok
      simp at hok
    | some h =>
      rw [hl] at hok
      dsimp only at hok
      cases hv : verify h with
      | error e =>
        rw [hv] at hok
        simp at hok
      | ok b =>
        rw [hv] at hok
        cases b with
        | false => simp at hok
        | true => simp [invariantHolds, hl, hv]

/-- Witness for `invariant_amended`, discharging each hypothesis at
concrete inputs over `Unit` handles. -/
theorem invariant_amended_witness :
    invariantHolds (dpmInit Unit) ∧
    invariantHolds (removeDirectory (dpmInit Unit) [] "a").1 ∧
    invariantHolds (requestDirectoryPermission (Except.ok ())
      (fun _ => Except.ok true) (Except.ok "id1") (dpmInit Unit)).1 ∧
    invariantHolds (switchDirectory [("b", ())] (fun _ => Except.ok true) "b"
      (dpmInit Unit)).1 :=
  ⟨invariant_amended.1 Unit,
   invariant_amended.2.1 Unit (dpmInit Unit) [] "a" (invariant_amended.1 Unit),
   invariant_amended.2.2.1 Unit (Except.ok ()) (fun _ => Except.ok true)
     (Except.ok "id1") (dpmInit Unit) rfl,
   invariant_amended.2.2.2 Unit [("b", ())] (fun _ => Except.ok true) "b"
     (dpmInit Unit) rfl⟩

/-- C4 counterexample: `switchDirectory` on an id absent from the store
throws (an error result) instead of returning false; and a
denied-verification switch overwrites the cached permission flag (true
before, false after) even though the active id and token are kept. -/
theorem switch_claim_counterexample :
    (switchDirectory ([] : List (String × Unit)) (fun _ => Except.ok true) "b"
        { rootDirectoryHandle := some (), permissionGranted := true,
          currentDirectoryId := some "a" }).2 = Except.error () ∧
    (Except.error () : Except Unit Bool) ≠ Except.ok false ∧
    ({ rootDirectoryHandle := some (), permissionGranted := true,
       currentDirectoryId := some "a" } : DPMState Unit).permissionGranted = true ∧
    ((switchDirectory [("b", ())] (fun _ => Except.ok false) "b"
        { rootDirectoryHandle := some (), permissionGranted := true,
          currentDirectoryId := some "a" }).1).permissionGranted = false :=
  ⟨rfl, by decide, rfl, rfl⟩

/-- C4 (amended): an unknown id makes `switchDirectory` throw
(surfaced as an error result, not a false return) with the state
unchanged; a denied verification returns false keeping the previous
token and id but setting the cached permission to false; a throwing
verification is rethrown with the state unchanged. -/
theorem switch_failure_behaviour :
    (∀ (H : Type) (store : List (String × H)) (verify : H → Except Unit Bool)
        (id : String) (s : DPMState H),
        lookupAssoc store id = none →
        switchDirectory store verify id s = (s, Except.error ())) ∧
    (∀ (H : Type) (store : List (String × H)) (verify : H → Except Unit Bool)
        (id : String) (h : H) (s : DPMState H),
        lookupAssoc store id = some h → verify h = Except.ok false →
        switchDirectory store verify id s =
          ({ s with permissionGranted := false }, Except.ok false)) ∧
    (∀ (H : Type) (store : List (String × H)) (verify : H → Except Unit Bool)
        (id : String) (h : H) (s : DPMState H),
        lookupAssoc store id = some h → verify h = Except.error () →
        switchDirectory store verify id s = (s, Except.error ())) := by
  refine ⟨?_, ?_, ?_⟩
  · intro H store verify id s hl
    simp [switchDirectory, hl]
  · intro H store verify id h s hl hv
    simp [switchDirectory, hl, hv]
  · intro H store verify id h s hl hv
    simp [switchDirectory, hl, hv]

/-- Witness for `switch_failure_behaviour` at concrete inputs. -/
theorem switch_failure_behaviour_witness :
    lookupAssoc ([] : List (String × Unit)) "b" = none ∧
    switchDirectory ([] : List (String × Unit)) (fun _ => Except.ok true) "b"
      (dpmInit Unit) = (dpmInit Unit, Except.error ()) ∧
    lookupAssoc [("b", ())] "b" = some () ∧
    switchDirectory [("b", ())] (fun _ => Except.ok false) "b" (dpmInit Unit) =
      ({ dpmInit Unit with permissionGranted := false }, Except.ok false) :=
  ⟨rfl,
   switch_failure_behaviour.1 Unit [] (fun _ => Except.ok true) "b"
     (dpmInit Unit) rfl,
   rfl,
   switch_failure_behaviour.2.1 Unit [("b", ())] (fun _ => Except.ok false) "b"
     () (dpmInit Unit) rfl rfl⟩

/-- Walking one step to a freshly stored child directory exposes the
child's entries. -/
theorem walk_set_dir (es ces : List (String × Fs)) (d : String)
    (hd : validName d = true) :
    walkDir (childEntries (Fs.dir (setEntry es d (Fs.dir ces)))) [d] =
      some ces := by
  show walkDir (setEntry es d (Fs.dir ces)) [d] = some ces
  unfold walkDir
  rw [if_pos hd, lookup_setEntry_self]
  rfl

/-- Creating `d/f` and then walking to `d` exposes an entry list in
which `f` holds the written content. -/
theorem createFile_two_read (root root2 : Fs) (d f c : String)
    (hd : validName d = true) (hf : validName f = true)
    (h : createFilePath root [d, f] c = some root2) :
    ∃ ces, walkDir (childEntries root2) [d] = some ces ∧
      lookupAssoc ces f = some (Fs.file c) := by
  cases root with
  | file w => simp [createFilePath] at h
  | dir es =>
    cases hl : lookupAssoc es d with
    | none =>
      simp [createFilePath, lookupAssoc, hl, hd, hf] at h
      subst h
      exact ⟨setEntry [] f (Fs.file c),
        walk_set_dir es (setEntry [] f (Fs.file c)) d hd,
        lookup_setEntry_self [] f (Fs.file c)⟩
    | some v =>
      cases v with
      | file w => simp [createFilePath, hl, hd, hf] at h
      | dir ces0 =>
        cases hx : lookupAssoc ces0 f with
        | none =>
          simp [createFilePath, hl, hx, hd, hf] at h
          subst h
          exact ⟨setEntry ces0 f (Fs.file c),
            walk_set_dir es (setEntry ces0 f (Fs.file c)) d hd,
            lookup_setEntry_self ces0 f (Fs.file c)⟩
        | some u =>
          cases u with
          | file w2 =>
            simp [createFilePath, hl, hx, hd, hf] at h
            subst h
            exact ⟨setEntry ces0 f (Fs.file c),
              walk_set_dir es (setEntry ces0 f (Fs.file c)) d hd,
              lookup_setEntry_self ces0 f (Fs.file c)⟩
          | dir z =>
            simp [createFilePath, hl, hx, hd, hf] at h

/-- C5: with a grant active, each listed entry carries the host name,
the host kind, and a relative path equal to `relativeDir` joined with
the entry name by '/' with repeated separators collapsed (the entry
name alone when `relativeDir` is empty); and the concrete scenario:
after `write('notes/a.txt','hello')`, `list('notes')` returns exactly
one record `{name: 'a.txt', kind: file, relativePath: 'notes/a.txt'}`
(the source names the field `path`). -/
theorem list_shape_and_scenario :
    (∀ (cfg : FamConfig) (s : DPMState Fs) (pick : Option (List (String × Fs)))
        (directory : String) (es : List (String × Fs)),
        hasPermission s = true →
        getDirectoryHandle s directory = Except.ok es →
        (listFiles cfg s pick directory).1 =
          Except.ok (es.map fun kv =>
            { name := kv.1, kind := entryKind kv.2,
              path := if directory = "" then kv.1
                      else collapseSlashes (directory ++ "/" ++ kv.1) })) ∧
    ((writeFile cfg1024 activeEmptyRoot true "notes/a.txt" "hello").1 =
        Except.ok () ∧
     (listFiles cfg1024
         (writeFile cfg1024 activeEmptyRoot true "notes/a.txt" "hello").2.1 none
         "notes").1 =
       Except.ok [{ name := "a.txt", kind := EKind.file,
                    path := "notes/a.txt" }]) := by
  constructor
  · intro cfg s pick directory es hperm hdir
    unfold listFiles
    rw [if_pos hperm, hdir]
    dsimp only
    by_cases hd : directory = ""
    · subst hd
      simp
    · simp [hd]
  · exact ⟨rfl, rfl⟩

/-- Witness for `list_shape_and_scenario` at a concrete state. -/
theorem list_shape_witness :
    hasPermission notesState = true ∧
    getDirectoryHandle notesState "notes" =
      Except.ok [("a.txt", Fs.file "hello")] ∧
    (listFiles cfg1024 notesState none "notes").1 =
      Except.ok [{ name := "a.txt", kind := EKind.file,
                   path := "notes/a.txt" }] :=
  ⟨rfl, rfl,
   list_shape_and_scenario.1 cfg1024 notesState none "notes"
     [("a.txt", Fs.file "hello")] rfl rfl⟩

/-- C6: removing the currently active grant id clears the whole active
session state, after which resolving any path fails with NoActiveGrant;
and removing an id absent from the store still reports success
(the store's delete is idempotent). -/
theorem remove_active_clears_state :
    (∀ (s : DPMState Fs) (store : List (String × Fs)) (id : String),
        s.currentDirectoryId = some id →
        (removeDirectory s store id).2.2 = true ∧
        (removeDirectory s store id).1.rootDirectoryHandle = none ∧
        (removeDirectory s store id).1.permissionGranted = false ∧
        (removeDirectory s store id).1.currentDirectoryId = none ∧
        ∀ path, getFileHandle (removeDirectory s store id).1 path =
          Except.error FErr.noActiveGrant) ∧
    (∀ (H : Type) (s : DPMState H) (store : List (String × H)) (id : String),
        lookupAssoc store id = none →
        (removeDirectory s store id).2.2 = true) := by
  constructor
  · intro s store id hid
    unfold removeDirectory
    dsimp only
    rw [if_pos hid]
    exact ⟨rfl, rfl, rfl, rfl, fun path => rfl⟩
  · intro H s store id hl
    rfl

/-- Witness for `remove_active_clears_state` at concrete inputs. -/
theorem remove_active_clears_state_witness :
    activeEmptyRoot.currentDirectoryId = some "dir_0" ∧
    (removeDirectory activeEmptyRoot [("dir_0", Fs.dir [])]
        "dir_0").1.rootDirectoryHandle = none ∧
    getFileHandle (removeDirectory activeEmptyRoot [("dir_0", Fs.dir [])]
        "dir_0").1 "x" = Except.error FErr.noActiveGrant ∧
    lookupAssoc ([] : List (String × Fs)) "gone" = none ∧
    (removeDirectory activeEmptyRoot [] "gone").2.2 = true := by
  have h := remove_active_clears_state.1 activeEmptyRoot
    [("dir_0", Fs.dir [])] "dir_0" rfl
  exact ⟨rfl, h.2.1, h.2.2.2.2 "x", rfl,
    remove_active_clears_state.2 Fs activeEmptyRoot [] "gone" rfl⟩

/-- C7: `getStoredDirectories` returns one record per stored grant, and
a grant whose permission check throws is reported with
`hasPermission = false` and the error message attached, while the
remaining grants are still listed (the length is preserved); no
exception propagates. -/
theorem listGrants_isolates_failures :
    ∀ (H : Type) (verify : H → Except String Bool) (dirs : List (StoredDir H)),
      (getStoredDirectories verify dirs).length = dirs.length ∧
      ∀ d ∈ dirs, ∀ msg, verify d.handle = Except.error msg →
        ∃ v ∈ getStoredDirectories verify dirs,
          v.id = d.id ∧ v.hasPermission = false ∧ v.errNote = some msg := by
  intro H verify dirs
  constructor
  · simp [getStoredDirectories]
  · intro d hd msg hv
    refine ⟨_, List.mem_map_of_mem _ hd, ?_⟩
    simp [hv]

/-- Witness for `listGrants_isolates_failures` with one throwing grant. -/
theorem listGrants_isolates_failures_witness :
    ∃ v ∈ getStoredDirectories (fun _ : Unit => Except.error "boom")
        [{ id := "i1", name := "n", path := "p", handle := (),
           dateAdded := "d" }],
      v.id = "i1" ∧ v.hasPermission = false ∧ v.errNote = some "boom" :=
  (listGrants_isolates_failures Unit (fun _ => Except.error "boom")
    [{ id := "i1", name := "n", path := "p", handle := (),
       dateAdded := "d" }]).2
    { id := "i1", name := "n", path := "p", handle := (), dateAdded := "d" }
    (List.mem_singleton_self _) "boom" rfl

/-- C8: a file strictly larger than the configured ceiling makes `read`
fail with the limit error, and the event trace contains no decode event
(the size check runs before any decoding), on both the grant branch and
the picker branch. -/
theorem read_oversize_fails_before_decode :
    (∀ (cfg : FamConfig) (s : DPMState Fs) (pick : Option FileData)
        (path : String) (file : FileData),
        hasPermission s = true → path ≠ "" →
        getFileHandle s path = Except.ok file →
        byteLen file.content > cfg.maxFileSize →
        readFile cfg s pick path =
          (Except.error FErr.limitExceeded, [Ev.fsLookup path])) ∧
    (∀ (cfg : FamConfig) (s : DPMState Fs) (path q : String) (file : FileData),
        ¬ (hasPermission s = true ∧ path ≠ "") →
        resolvePath cfg s path = Except.ok q →
        byteLen file.content > cfg.maxFileSize →
        readFile cfg s (some file) path =
          (Except.error FErr.limitExceeded,
           [Ev.validated path, Ev.pickerOpen])) := by
  constructor
  · intro cfg s pick path file hperm hpath hget hsize
    unfold readFile
    rw [if_pos ⟨hperm, hpath⟩, hget]
    dsimp only
    unfold finishRead
    rw [if_pos hsize]
  · intro cfg s path q file hcond hres hsize
    unfold readFile
    rw [if_neg hcond, hres]
    dsimp only
    unfold finishRead
    rw [if_pos hsize]

/-- Witness for `read_oversize_fails_before_decode` on a 5-byte file
with a 3-byte ceiling. -/
theorem read_oversize_witness :
    hasPermission oversizeState = true ∧
    ("big.txt" : String) ≠ "" ∧
    getFileHandle oversizeState "big.txt" =
      Except.ok { name := "big.txt", content := "hello" } ∧
    byteLen "hello" > cfgTiny.maxFileSize ∧
    readFile cfgTiny oversizeState none "big.txt" =
      (Except.error FErr.limitExceeded, [Ev.fsLookup "big.txt"]) :=
  ⟨rfl, by decide, rfl, by decide,
   read_oversize_fails_before_decode.1 cfgTiny oversizeState none "big.txt"
     { name := "big.txt", content := "hello" } rfl (by decide) rfl (by decide)⟩

/-- C9: from any active-grant state in which the write succeeds,
`write('notes/a.txt','hello')` followed by `read('notes/a.txt')` under
`maxFileSize = 1024` returns content "hello", name "a.txt" and size 5
(the `.txt` extension selects the text-decoding branch). -/
theorem write_read_roundtrip (s : DPMState Fs) (root : Fs)
    (pick : Option FileData) (savePickOk : Bool)
    (hperm : hasPermission s = true)
    (hroot : s.rootDirectoryHandle = some root)
    (hw : (writeFile cfg1024 s savePickOk "notes/a.txt" "hello").1 =
      Except.ok ()) :
    (readFile cfg1024 (writeFile cfg1024 s savePickOk "notes/a.txt" "hello").2.1
        pick "notes/a.txt").1 =
      Except.ok { content := "hello", name := "a.txt", size := 5 } := by
  have hne : ("notes/a.txt" : String) ≠ "" := by decide
  have hseg : pathSegments "notes/a.txt" = ["notes", "a.txt"] := by decide
  have hwEq : writeFile cfg1024 s savePickOk "notes/a.txt" "hello" =
      (match createFilePath root ["notes", "a.txt"] "hello" with
       | some root2 =>
         (Except.ok (), { s with rootDirectoryHandle := some root2 },
          [Ev.fsLookup "notes/a.txt"])
       | none => (Except.error FErr.notFound, s, [Ev.fsLookup "notes/a.txt"])) := by
    unfold writeFile
    rw [if_pos ⟨hperm, hne⟩, hroot]
    dsimp only
    rw [hseg]
    rw [if_neg (by decide : ¬ (["notes", "a.txt"] = ([] : List String)))]
  cases hc : createFilePath root ["notes", "a.txt"] "hello" with
  | none =>
    rw [hwEq, hc] at hw
    simp at hw
  | some root2 =>
    have hstate : (writeFile cfg1024 s savePickOk "notes/a.txt" "hello").2.1 =
        { s with rootDirectoryHandle := some root2 } := by
      rw [hwEq, hc]
    rw [hstate]
    have hperm2 :
        hasPermission ({ s with rootDirectoryHandle := some root2 }) = true := by
      simp only [hasPermission, Bool.and_eq_true] at hperm ⊢
      exact ⟨rfl, hperm.2⟩
    obtain ⟨ces, hwalk, hlf⟩ := createFile_two_read root root2 "notes" "a.txt"
      "hello" (by decide) (by decide) hc
    have hsp : splitLast ["notes", "a.txt"] = some (["notes"], "a.txt") := rfl
    have hvn : validName "a.txt" = true := by decide
    have hget : getFileHandle { s with rootDirectoryHandle := some root2 }
        "notes/a.txt" = Except.ok { name := "a.txt", content := "hello" } := by
      unfold getFileHandle
      dsimp only
      rw [hseg, hsp]
      dsimp only
      rw [hwalk]
      dsimp only
      rw [if_pos hvn, hlf]
    have hfin : finishRead cfg1024 { name := "a.txt", content := "hello" } =
        (Except.ok { content := "hello", name := "a.txt", size := 5 },
         [Ev.decodeText]) := by decide
    unfold readFile
    rw [if_pos ⟨hperm2, hne⟩, hget]
    dsimp only
    rw [hfin]

/-- Witness for `write_read_roundtrip` from the empty granted root. -/
theorem write_read_roundtrip_witness :
    hasPermission activeEmptyRoot = true ∧
    activeEmptyRoot.rootDirectoryHandle = some (Fs.dir []) ∧
    (writeFile cfg1024 activeEmptyRoot true "notes/a.txt" "hello").1 =
      Except.ok () ∧
    (readFile cfg1024
        (writeFile cfg1024 activeEmptyRoot true "notes/a.txt" "hello").2.1 none
        "notes/a.txt").1 =
      Except.ok { content := "hello", name := "a.txt", size := 5 } :=
  ⟨rfl, rfl, rfl,
   write_read_roundtrip activeEmptyRoot (Fs.dir []) none true rfl rfl rfl⟩

/-- An empty path always validates, so `_resolvePath` succeeds on it. -/
theorem resolvePath_empty_ok (cfg : FamConfig) (s : DPMState Fs) :
    ∃ q, resolvePath cfg s "" = Except.ok q := by
  unfold resolvePath validateFilePath
  rw [if_pos (Or.inl rfl)]
  dsimp only
  split
  · exact ⟨_, rfl⟩
  · exact ⟨_, rfl⟩

/-- On the empty path `_resolvePath` does not depend on the session
state: the validator accepts "" under both grant flags. -/
theorem resolvePath_empty_state_irrel (cfg : FamConfig) (s : DPMState Fs) :
    resolvePath cfg s "" = resolvePath cfg (dpmInit Fs) "" := by
  unfold resolvePath validateFilePath
  rw [if_pos (Or.inl rfl), if_pos (Or.inl rfl)]

/-- C10: with a grant active, `read("")` does not resolve anything under
the grant: the grant branch requires a non-empty path, so the call runs
the picker branch — it behaves exactly as in the no-grant state, opens
the host picker, and performs no lookup under the granted root. -/
theorem read_empty_path_uses_picker :
    ∀ (cfg : FamConfig) (s : DPMState Fs) (pick : Option FileData),
      hasPermission s = true →
      readFile cfg s pick "" = readFile cfg (dpmInit Fs) pick "" ∧
      Ev.pickerOpen ∈ (readFile cfg s pick "").2 ∧
      ∀ p, Ev.fsLookup p ∉ (readFile cfg s pick "").2 := by
  intro cfg s pick hperm
  have hcond : ¬ (hasPermission s = true ∧ ("" : String) ≠ "") :=
    fun hc => hc.2 rfl
  have hcond0 : ¬ (hasPermission (dpmInit Fs) = true ∧ ("" : String) ≠ "") :=
    fun hc => hc.2 rfl
  obtain ⟨q, hq⟩ := resolvePath_empty_ok cfg s
  refine ⟨?_, ?_, ?_⟩
  · unfold readFile
    rw [if_neg hcond, if_neg hcond0, resolvePath_empty_state_irrel]
  · unfold readFile
    rw [if_neg hcond, hq]
    dsimp only
    cases pick with
    | none => simp
    | some file => simp
  · intro p
    unfold readFile
    rw [if_neg hcond, hq]
    dsimp only
    cases pick with
    | none => simp
    | some file =>
      rcases finishRead_events cfg file with hf | hf | hf <;> simp [hf]

/-- Witness for `read_empty_path_uses_picker` at a concrete state. -/
theorem read_empty_path_uses_picker_witness :
    hasPermission activeEmptyRoot = true ∧
    readFile cfg1024 activeEmptyRoot none "" =
      readFile cfg1024 (dpmInit Fs) none "" ∧
    Ev.pickerOpen ∈ (readFile cfg1024 activeEmptyRoot none "").2 :=
  ⟨rfl, (read_empty_path_uses_picker cfg1024 activeEmptyRoot none rfl).1,
   (read_empty_path_uses_picker cfg1024 activeEmptyRoot none rfl).2.1⟩

end FilePlugin
